import Mathlib

/-
Verification of the photo_compresser compression core
(src/service/compression_profiles.py, src/service/image_compression.py,
src/service/file_utils.py) via a shallow embedding.

Modelling conventions:
* Python ints are ℤ (or ℕ where the code guarantees non-negativity),
  Python floats are ℚ: the float arithmetic of the source is idealized as
  exact rational arithmetic, and int() truncation of a non-negative value
  is Nat division.
* Raised exceptions are Except.error values.
* Filesystem paths are lists of components relative to the relevant root.
-/

namespace PhotoCompresser

/-- Decimal digit characters, mirroring the characters Python str(int)
produces for values 0-9. -/
def digitChar (n : ℕ) : Char :=
  if n = 0 then '0' else if n = 1 then '1' else if n = 2 then '2'
  else if n = 3 then '3' else if n = 4 then '4' else if n = 5 then '5'
  else if n = 6 then '6' else if n = 7 then '7' else if n = 8 then '8'
  else if n = 9 then '9' else '*'

/-- Inverse of digitChar on decimal digits, used only in proofs. -/
def charVal (c : Char) : ℕ :=
  if c = '0' then 0 else if c = '1' then 1 else if c = '2' then 2
  else if c = '3' then 3 else if c = '4' then 4 else if c = '5' then 5
  else if c = '6' then 6 else if c = '7' then 7 else if c = '8' then 8
  else 9

/-- Decimal digit recursion with explicit fuel (the fuel only needs to be at
least the number itself, see natStrDigits). -/
def natStrDigitsAux : ℕ → ℕ → List Char
  | 0, n => [digitChar (n % 10)]
  | fuel + 1, n =>
      if n < 10 then [digitChar n]
      else natStrDigitsAux fuel (n / 10) ++ [digitChar (n % 10)]

/-- Decimal digit list of a natural number, most significant first:
the model of Python str(int) for non-negative values. -/
def natStrDigits (n : ℕ) : List Char :=
  natStrDigitsAux n n

/-- ASCII lower-casing of one character: the effect of Python str.lower on
the ASCII strings (extensions, format names) this code base compares. -/
def asciiLowerChar (c : Char) : Char :=
  if 'A' ≤ c ∧ c ≤ 'Z' then Char.ofNat (c.toNat + 32) else c

/-- ASCII upper-casing of one character, the effect of Python str.upper. -/
def asciiUpperChar (c : Char) : Char :=
  if 'a' ≤ c ∧ c ≤ 'z' then Char.ofNat (c.toNat - 32) else c

/-- Model of Python str.lower for the ASCII strings this code compares. -/
def strLower (s : String) : String :=
  ⟨s.data.map asciiLowerChar⟩

/-- Model of Python str.upper for the ASCII strings this code compares. -/
def strUpper (s : String) : String :=
  ⟨s.data.map asciiUpperChar⟩

/-- Model of Python str(int) for a non-negative int. -/
def natStr (n : ℕ) : String :=
  ⟨natStrDigits n⟩

/-- Value of a digit list, used only to prove natStr injective. -/
def digitsVal (l : List Char) : ℕ :=
  l.foldl (fun a c => 10 * a + charVal c) 0

/-- Scalar values as they appear in the parameter bags and EXIF maps of the
source (JSON-representable scalars). -/
inductive PyVal where
  | null
  | bool (b : Bool)
  | num (q : ℚ)
  | str (s : String)
deriving DecidableEq

/-- Model of Python dict.get(k) on a string-keyed map of scalars: the first
binding of the key, None (null) when the key is absent. -/
def pyGet : List (String × PyVal) → String → PyVal
  | [], _ => .null
  | kv :: rest, k => if kv.1 = k then kv.2 else pyGet rest k

/-- NumericCondition from compression_profiles.py: an operator string and a
threshold value. -/
structure NumericCondition where
  op : String
  value : ℚ
deriving DecidableEq

/-- ProfileConditions._match from compression_profiles.py: an unset condition
passes, a set condition with an absent actual value fails, otherwise the
operator string is interpreted (unknown operators fail). -/
def matchCond : Option NumericCondition → Option ℚ → Bool
  | none, _ => true
  | some _, none => false
  | some c, some a =>
      if c.op = "<" then decide (a < c.value)
      else if c.op = "<=" then decide (a ≤ c.value)
      else if c.op = ">" then decide (c.value < a)
      else if c.op = ">=" then decide (c.value ≤ a)
      else if c.op = "==" then a == c.value
      else false

/-- ProfileConditions from compression_profiles.py (slots dataclass with all
fields defaulting to None). -/
structure ProfileConditions where
  smallest_side : Option NumericCondition := none
  largest_side : Option NumericCondition := none
  pixel_count : Option NumericCondition := none
  aspect_ratio : Option NumericCondition := none
  orientation : Option String := none
  input_formats : Option (List String) := none
  requires_transparency : Option Bool := none
  file_size : Option NumericCondition := none
  required_exif : Option (List (String × PyVal)) := none
deriving DecidableEq

/-- The orientation string computed inside ProfileConditions.matches. -/
def orientationOf (width height : ℕ) : String :=
  if width = height then "square"
  else if height < width then "landscape" else "portrait"

/-- ProfileConditions.matches from compression_profiles.py. The derived
facets (smallest side, largest side, pixel count, aspect ratio, orientation)
are always available; image_format, has_transparency, file_size and exif are
the optional keyword arguments. Python's required_exif guard uses dict
truthiness, so a None or empty mapping is vacuously true. -/
def ProfileConditions.matches (c : ProfileConditions) (width height : ℕ)
    (image_format : Option String) (has_transparency : Option Bool)
    (file_size : Option ℚ) (exif : Option (List (String × PyVal))) : Bool :=
  matchCond c.smallest_side (some ((min width height : ℕ) : ℚ)) &&
  matchCond c.largest_side (some ((max width height : ℕ) : ℚ)) &&
  matchCond c.pixel_count (some ((width * height : ℕ) : ℚ)) &&
  matchCond c.aspect_ratio (some ((width : ℚ) / (height : ℚ))) &&
  (match c.orientation with
   | none => true
   | some o => orientationOf width height = o) &&
  (match c.input_formats, image_format with
   | none, _ => true
   | some _, none => false
   | some fmts, some f => (fmts.map strUpper).contains (strUpper f)) &&
  (match c.requires_transparency, has_transparency with
   | none, _ => true
   | some _, none => false
   | some r, some t => t = r) &&
  matchCond c.file_size file_size &&
  (match c.required_exif with
   | none => true
   | some [] => true
   | some req =>
      match exif with
      | none => false
      | some ex => req.all (fun kv => pyGet ex kv.1 == kv.2))

/-- CompressionProfile from compression_profiles.py: a slots dataclass whose
declared fields are exactly the nine below. -/
structure CompressionProfile where
  name : String
  quality : ℤ := 75
  max_largest_side : Option ℕ := none
  max_smallest_side : Option ℕ := none
  output_format : String := "JPEG"
  jpeg_params : List (String × PyVal) := []
  webp_params : List (String × PyVal) := []
  avif_params : List (String × PyVal) := []
  conditions : ProfileConditions := {}
deriving DecidableEq

/-- Model of Python attribute lookup of "preserve_structure" on a
CompressionProfile value: the slots dataclass declares no such field, so the
lookup finds nothing (an AttributeError in Python). -/
def CompressionProfile.preserve_structure? (_ : CompressionProfile) : Option Bool :=
  none

/-- JSON values: the structured document written by save_profiles via
json.dumps and read back by json.loads. -/
inductive J where
  | null
  | jb (v : Bool)
  | jn (v : ℚ)
  | js (v : String)
  | jarr (vs : List J)
  | jobj (kvs : List (String × J))

/-- Scalars embed into JSON values unchanged. -/
def pyToJ : PyVal → J
  | .null => .null
  | .bool v => .jb v
  | .num v => .jn v
  | .str v => .js v

/-- dataclasses.asdict of a parameter bag or EXIF mapping. -/
def paramsToJ (ps : List (String × PyVal)) : J :=
  .jobj (ps.map (fun kv => (kv.1, pyToJ kv.2)))

/-- dataclasses.asdict of a NumericCondition. -/
def ncToJ (c : NumericCondition) : J :=
  .jobj [("op", .js c.op), ("value", .jn c.value)]

/-- Optional values serialize to null when absent. -/
def optJ {α : Type} (f : α → J) : Option α → J
  | none => .null
  | some x => f x

/-- dataclasses.asdict of a ProfileConditions, field order as declared. -/
def conditionsToJ (c : ProfileConditions) : J :=
  .jobj
    [("smallest_side", optJ ncToJ c.smallest_side),
     ("largest_side", optJ ncToJ c.largest_side),
     ("pixel_count", optJ ncToJ c.pixel_count),
     ("aspect_ratio", optJ ncToJ c.aspect_ratio),
     ("orientation", optJ J.js c.orientation),
     ("input_formats", optJ (fun l => .jarr (l.map J.js)) c.input_formats),
     ("requires_transparency", optJ J.jb c.requires_transparency),
     ("file_size", optJ ncToJ c.file_size),
     ("required_exif", optJ paramsToJ c.required_exif)]

/-- dataclasses.asdict of a CompressionProfile, field order as declared. -/
def profileToJ (p : CompressionProfile) : J :=
  .jobj
    [("name", .js p.name),
     ("quality", .jn (p.quality : ℚ)),
     ("max_largest_side", optJ (fun n : ℕ => .jn (n : ℚ)) p.max_largest_side),
     ("max_smallest_side", optJ (fun n : ℕ => .jn (n : ℚ)) p.max_smallest_side),
     ("output_format", .js p.output_format),
     ("jpeg_params", paramsToJ p.jpeg_params),
     ("webp_params", paramsToJ p.webp_params),
     ("avif_params", paramsToJ p.avif_params),
     ("conditions", conditionsToJ p.conditions)]

/-- save_profiles from compression_profiles.py at the structured-document
level: the JSON array of asdict(profile) for each profile, in order. -/
def save_profiles (profiles : List CompressionProfile) : J :=
  .jarr (profiles.map profileToJ)

/-- JSON object lookup: the model of dict.get on a parsed JSON object. -/
def jGet : List (String × J) → String → Option J
  | [], _ => none
  | kv :: rest, key => if kv.1 = key then some kv.2 else jGet rest key

/-- A JSON value back to a scalar; none marks shapes the scalar model cannot
represent. -/
def jToPy : J → Option PyVal
  | .null => some .null
  | .jb v => some (.bool v)
  | .jn v => some (.num v)
  | .js v => some (.str v)
  | .jarr _ => none
  | .jobj _ => none

/-- Elementwise decoding of a list; none marks the first unrepresentable
element. -/
def optMap {α β : Type} (g : α → Option β) : List α → Option (List β)
  | [] => some []
  | x :: xs =>
      match g x with
      | none => none
      | some y =>
          match optMap g xs with
          | none => none
          | some ys => some (y :: ys)

/-- A JSON object back to a parameter bag of scalars. -/
def paramsFromJ : J → Option (List (String × PyVal))
  | .jobj kvs => optMap (fun kv => (jToPy kv.2).map (fun v => (kv.1, v))) kvs
  | _ => none

/-- The _nc helper of ProfileConditions.from_dict: a dict value becomes
NumericCondition(**val), anything else (missing key or null) becomes None.
NumericCondition(**val) requires exactly the op and value keys; other shapes
are TypeErrors, which the scalar model marks with the outer none. -/
def ncFromJ : Option J → Option (Option NumericCondition)
  | some (.jobj [("op", .js o), ("value", .jn v)]) => some (some ⟨o, v⟩)
  | some (.jobj _) => none
  | _ => some none

/-- data.get of an optional string field (orientation). -/
def jOptStr : Option J → Option (Option String)
  | some (.js v) => some (some v)
  | some .null => some none
  | none => some none
  | _ => none

/-- data.get of an optional bool field (requires_transparency). -/
def jOptBool : Option J → Option (Option Bool)
  | some (.jb v) => some (some v)
  | some .null => some none
  | none => some none
  | _ => none

/-- data.get of an optional list-of-strings field (input_formats). -/
def jOptStrList : Option J → Option (Option (List String))
  | some (.jarr vs) =>
      (optMap (fun v => match v with | J.js s' => some s' | _ => none) vs).map some
  | some .null => some none
  | none => some none
  | _ => none

/-- data.get of an optional scalar-valued mapping field (required_exif). -/
def jOptExif : Option J → Option (Option (List (String × PyVal)))
  | some (.jobj kvs) => (paramsFromJ (.jobj kvs)).map some
  | some .null => some none
  | none => some none
  | _ => none

/-- item.get of an optional non-negative int field (max sides). -/
def jOptNat : Option J → Option (Option ℕ)
  | some (.jn v) => if v.den = 1 ∧ 0 ≤ v.num then some (some v.num.toNat) else none
  | some .null => some none
  | none => some none
  | _ => none

/-- ProfileConditions.from_dict from compression_profiles.py. -/
def conditionsFromJ : J → Option ProfileConditions
  | .jobj kvs => do
      let ss ← ncFromJ (jGet kvs "smallest_side")
      let ls ← ncFromJ (jGet kvs "largest_side")
      let pc ← ncFromJ (jGet kvs "pixel_count")
      let ar ← ncFromJ (jGet kvs "aspect_ratio")
      let ori ← jOptStr (jGet kvs "orientation")
      let fmts ← jOptStrList (jGet kvs "input_formats")
      let rt ← jOptBool (jGet kvs "requires_transparency")
      let fs ← ncFromJ (jGet kvs "file_size")
      let re ← jOptExif (jGet kvs "required_exif")
      some ⟨ss, ls, pc, ar, ori, fmts, rt, fs, re⟩
  | _ => none

/-- One iteration of the load_profiles loop: item["name"] (KeyError if
absent), item.get with the documented defaults for every other field, and
ProfileConditions.from_dict(item.get("conditions", {})). -/
def profileFromJ : J → Option CompressionProfile
  | .jobj kvs => do
      let name ← match jGet kvs "name" with
        | some (.js v) => some v
        | _ => none
      let quality ← match jGet kvs "quality" with
        | some (.jn v) => if v.den = 1 then some v.num else none
        | none => some 75
        | _ => none
      let mls ← jOptNat (jGet kvs "max_largest_side")
      let mss ← jOptNat (jGet kvs "max_smallest_side")
      let fmt ← match jGet kvs "output_format" with
        | some (.js v) => some v
        | none => some "JPEG"
        | _ => none
      let jp ← match jGet kvs "jpeg_params" with
        | some x => paramsFromJ x
        | none => some []
      let wp ← match jGet kvs "webp_params" with
        | some x => paramsFromJ x
        | none => some []
      let ap ← match jGet kvs "avif_params" with
        | some x => paramsFromJ x
        | none => some []
      let conds ← conditionsFromJ ((jGet kvs "conditions").getD (.jobj []))
      some ⟨name, quality, mls, mss, fmt, jp, wp, ap, conds⟩
  | _ => none

/-- load_profiles from compression_profiles.py at the structured-document
level: iterate over the parsed JSON array rebuilding each profile. -/
def load_profiles : J → Option (List CompressionProfile)
  | .jarr items => optMap profileFromJ items
  | _ => none

/-- The properties Image.open exposes for a readable image file: pixel size,
the declared format (img.format, possibly None), transparency presence and
the EXIF mapping. -/
structure ImgData where
  width : ℕ
  height : ℕ
  format : Option String
  has_transparency : Bool
  exif : List (String × PyVal)
deriving DecidableEq

/-- select_profile from compression_profiles.py: profiles are scanned from
the end of the sequence to the start and the first whose conditions match is
returned; (img.format or "").upper() is the format actual. -/
def select_profile (d : ImgData) (file_size : Option ℚ)
    (profiles : List CompressionProfile) : Option CompressionProfile :=
  profiles.reverse.find? (fun p =>
    p.conditions.matches d.width d.height (some (strUpper (d.format.getD "")))
      (some d.has_transparency) file_size (some d.exif))

/-- ImageCompressor state from image_compression.py. -/
structure ImageCompressor where
  quality : ℤ
  max_largest_side : Option ℕ
  max_smallest_side : Option ℕ
  preserve_structure : Bool
  output_format : String
  num_workers : ℤ
  jpeg_params : List (String × PyVal)
  webp_params : List (String × PyVal)
  avif_params : List (String × PyVal)
deriving DecidableEq

/-- ImageCompressor.__init__: the quality argument is clamped into 1..100,
the output format upper-cased, the worker count floored at 1, and the three
parameter bags start empty. -/
def ImageCompressor.init (quality : ℤ) (max_largest_side max_smallest_side : Option ℕ)
    (preserve_structure : Bool) (output_format : String) (num_workers : ℤ) :
    ImageCompressor :=
  ⟨max 1 (min 100 quality), max_largest_side, max_smallest_side,
   preserve_structure, strUpper output_format, max 1 num_workers, [], [], []⟩

/-- ImageCompressor.apply_profile: quality, max_largest_side and
max_smallest_side are assigned first; the read of profile.preserve_structure
then raises AttributeError (the slots dataclass has no such attribute), so
the error state carries the three already-overwritten fields. The ok branch
transcribes the remaining assignments and is unreachable. -/
def apply_profile (c : ImageCompressor) (p : CompressionProfile) :
    Except ImageCompressor ImageCompressor :=
  let c1 : ImageCompressor :=
    { c with
      quality := p.quality
      max_largest_side := p.max_largest_side
      max_smallest_side := p.max_smallest_side }
  match p.preserve_structure? with
  | none => .error c1
  | some b =>
      .ok { c1 with
            preserve_structure := b
            output_format := strUpper p.output_format
            jpeg_params := p.jpeg_params
            webp_params := p.webp_params
            avif_params := p.avif_params }

/-- The compressor state after apply_profile returns or raises. -/
def quality_after (c : ImageCompressor) (p : CompressionProfile) : ℤ :=
  match apply_profile c p with
  | .error c' => c'.quality
  | .ok c' => c'.quality

/-- ImageCompressor._get_extension_according_format. -/
def _get_extension_according_format (c : ImageCompressor) : String :=
  if c.output_format = "WEBP" then ".webp"
  else if c.output_format = "AVIF" then ".avif"
  else ".jpg"

/-- The fresh compressor process_directory._clone_with_profile builds from
the current settings (num_workers left at its default of 1) before applying
a profile: constructed through __init__ and given copies of the three
parameter bags. -/
def cloneBase (self : ImageCompressor) : ImageCompressor :=
  { ImageCompressor.init self.quality self.max_largest_side
      self.max_smallest_side self.preserve_structure self.output_format 1 with
    jpeg_params := self.jpeg_params
    webp_params := self.webp_params
    avif_params := self.avif_params }

/-- process_directory._clone_with_profile: the fresh clone, with the profile
applied when one was selected. -/
def _clone_with_profile (self : ImageCompressor) (profile : Option CompressionProfile) :
    Except ImageCompressor ImageCompressor :=
  match profile with
  | none => .ok (cloneBase self)
  | some p => apply_profile (cloneBase self) p

/-- The first if-block of the resize planning in compress_image (lines
108-112): when the largest side exceeds the cap, both dimensions are scaled
by max_largest/largest. Python computes int(dim * (cap / side)) with floats;
over exact rationals that truncation is Nat division dim * cap / side. -/
def plan_step1 (maxL : Option ℕ) (width height : ℕ) : ℕ × ℕ :=
  match maxL with
  | some m =>
      if m < max width height then
        (width * m / max width height, height * m / max width height)
      else (width, height)
  | none => (width, height)

/-- The second if-block of the resize planning in compress_image (lines
114-120): when the original smallest side exceeds the cap and the current
smallest side still does, a second proportional scale is applied to the
already-scaled pair. -/
def plan_step2 (maxS : Option ℕ) (width height : ℕ) (a₁ : ℕ × ℕ) : ℕ × ℕ :=
  match maxS with
  | some m =>
      if m < min width height then
        if m < min a₁.1 a₁.2 then
          (a₁.1 * m / min a₁.1 a₁.2, a₁.2 * m / min a₁.1 a₁.2)
        else a₁
      else a₁
  | none => a₁

/-- The resize planning of ImageCompressor.compress_image (lines 106-120):
the largest-side pass followed by the smallest-side pass. -/
def plan_dimensions (maxL maxS : Option ℕ) (width height : ℕ) : ℕ × ℕ :=
  plan_step2 maxS width height (plan_step1 maxL width height)

/-- SUPPORTED_EXTENSIONS from constants.py. -/
def SUPPORTED_EXTENSIONS : List String :=
  [".jpg", ".jpeg", ".png", ".bmp", ".tiff", ".tif", ".webp", ".avif",
   ".heic", ".heif", ".gif", ".ico", ".ppm", ".pgm", ".pbm"]

/-- A path relative to the input or output root, as components. -/
abbrev FsPath := List String

/-- A regular file under the input root as the planning loop sees it:
its directory components, stem and suffix (Path.stem and Path.suffix, so
name = stem ++ suffix), its byte size, and the image data Image.open yields
(none for a file Image.open cannot read). -/
structure SrcFile where
  dirs : List String
  stem : String
  suffix : String
  size : ℕ
  image : Option ImgData
deriving DecidableEq

/-- The file's name, stem plus suffix. -/
def SrcFile.name (f : SrcFile) : String :=
  f.stem ++ f.suffix

/-- The file's path relative to the input root. -/
def SrcFile.path (f : SrcFile) : FsPath :=
  f.dirs ++ [f.name]

/-- The supported-extension check of process_directory. -/
def SrcFile.supported (f : SrcFile) : Bool :=
  SUPPORTED_EXTENSIONS.contains (strLower f.suffix)

/-- The candidate names the flattening collision loop tries in order:
stem+ext first, then stem_1+ext, stem_2+ext, and so on. -/
def numberedName (stem ext : String) (i : ℕ) : String :=
  if i = 0 then stem ++ ext else stem ++ "_" ++ natStr i ++ ext

/-- The collision while-loop: try candidate i, advance while it is taken.
The fuel bounds the iteration count; with fuel exceeding the number of taken
names the loop always finds a free candidate (see findFree_not_mem). -/
def findFreeAux (stem ext : String) (taken : List FsPath) : ℕ → ℕ → FsPath
  | 0, i => [numberedName stem ext i]
  | fuel + 1, i =>
      if ([numberedName stem ext i] : FsPath) ∈ taken then
        findFreeAux stem ext taken fuel (i + 1)
      else [numberedName stem ext i]

/-- The flattening-mode output name for a stem and extension, unique against
the names already claimed in this run and the files already written. -/
def findFree (stem ext : String) (taken : List FsPath) : FsPath :=
  findFreeAux stem ext taken (taken.length + 1) 0

/-- The exceptions that can escape process_directory. -/
inductive RunError where
  | fileExistsError
  | unidentifiedImage (path : FsPath)
  | attributeError (attr : String)
deriving DecidableEq

/-- The profile-selection step of the planning loop for one supported file:
select_profile is consulted only when a non-empty profile list was supplied,
and opening the image there propagates an open failure out of the loop. -/
def planSelect (profiles : Option (List CompressionProfile)) (f : SrcFile) :
    Except RunError (Option CompressionProfile) :=
  match profiles with
  | none => .ok none
  | some [] => .ok none
  | some ps =>
      match f.image with
      | none => .error (.unidentifiedImage f.path)
      | some d => .ok (select_profile d (some (f.size : ℚ)) ps)

/-- The destination for a supported image: directly under the output root
when the clone preserves structure, otherwise collision-resolved against the
names already claimed and the files already written. -/
def planImageDst (comp : ImageCompressor) (f : SrcFile)
    (used written : List FsPath) : FsPath :=
  if comp.preserve_structure then [f.stem ++ _get_extension_according_format comp]
  else findFree f.stem (_get_extension_according_format comp) (used ++ written)

/-- The destination for an unsupported file: the mirrored relative path when
preserving structure, otherwise collision-resolved under the output root. -/
def planCopyDst (self : ImageCompressor) (f : SrcFile)
    (used written : List FsPath) : FsPath :=
  if self.preserve_structure then f.dirs ++ [f.name]
  else findFree f.stem f.suffix (used ++ written)

/-- The planning pre-pass of process_directory (lines 312-350): walk the
files in order; a supported image is assigned a compressor clone (planSelect
then _clone_with_profile, either of which can abort the run) and a
destination path recorded in used_names; any other file is copied to
planCopyDst, recorded in used_names only when flattening. Returns the task
list, the final used_names and the paths of all copied files. -/
def planFiles (self : ImageCompressor) (profiles : Option (List CompressionProfile)) :
    List SrcFile → List FsPath → List FsPath →
    Except RunError (List (ImageCompressor × SrcFile × FsPath) × List FsPath × List FsPath)
  | [], used, written => .ok ([], used, written)
  | f :: fs, used, written =>
      if f.supported then
        match planSelect profiles f with
        | .error e => .error e
        | .ok prof =>
            match _clone_with_profile self prof with
            | .error _ => .error (.attributeError "preserve_structure")
            | .ok comp =>
                match planFiles self profiles fs
                    (used ++ [planImageDst comp f used written]) written with
                | .error e => .error e
                | .ok (tasks, used', written') =>
                    .ok ((comp, f, planImageDst comp f used written) :: tasks,
                      used', written')
      else
        planFiles self profiles fs
          (if self.preserve_structure then used
           else used ++ [planCopyDst self f used written])
          (written ++ [planCopyDst self f used written])

/-- ImageCompressor.compress_image for a planned task: a file Image.open
cannot read makes the whole body's try swallow the exception and return
None; otherwise the image is resized per plan_dimensions and saved to the
destination, which the save helpers return (encoders modelled as
succeeding). -/
def compress_image (c : ImageCompressor) (f : SrcFile) (dst : FsPath) : Option FsPath :=
  match f.image with
  | none => none
  | some d =>
      let _resized := plan_dimensions c.max_largest_side c.max_smallest_side d.width d.height
      some dst

/-- ImageCompressor.process_directory: count the supported files, reject an
existing output root, run the planning pre-pass, then compress every task
collecting successes and failed source paths (the sequential branch; the
thread-pool branch aggregates the same outcomes). Returns (total_files,
compressed_files, compressed_paths, failed_files). -/
def process_directory (self : ImageCompressor) (files : List SrcFile)
    (profiles : Option (List CompressionProfile)) (output_root_exists : Bool) :
    Except RunError (ℕ × ℕ × List FsPath × List FsPath) :=
  let total_files := (files.filter (fun f => f.supported)).length
  if output_root_exists then .error .fileExistsError
  else
    match planFiles self profiles files [] [] with
    | .error e => .error e
    | .ok (tasks, _, _) =>
        let results := tasks.map (fun t => (compress_image t.1 t.2.1 t.2.2, t.2.1))
        let compressed := results.filterMap (fun r => r.1)
        let failed := results.filterMap
          (fun r => match r.1 with | none => some r.2.path | some _ => none)
        .ok (total_files, compressed.length, compressed, failed)

/-- format_timedelta from file_utils.py for a non-negative whole-second
duration: divmod into days, hours, minutes, seconds; each unit is appended
only when nonzero, seconds also when nothing else was appended. -/
def format_timedelta (total_seconds : ℕ) : String :=
  let days := total_seconds / 86400
  let rem1 := total_seconds % 86400
  let hours := rem1 / 3600
  let rem2 := rem1 % 3600
  let minutes := rem2 / 60
  let seconds := rem2 % 60
  let parts : List String :=
    (if days ≠ 0 then [natStr days ++ "d"] else []) ++
    (if hours ≠ 0 then [natStr hours ++ "h"] else []) ++
    (if minutes ≠ 0 then [natStr minutes ++ "m"] else [])
  let parts :=
    parts ++ (if seconds ≠ 0 ∨ parts = [] then [natStr seconds ++ "s"] else [])
  " ".intercalate parts

/-! Concrete fixtures used by witnesses and counterexamples. -/

/-- A 100x50 landscape JPEG image. -/
def imgWide : ImgData :=
  ⟨100, 50, some "JPEG", false, []⟩

/-- A 10x10 JPEG image. -/
def imgSmall : ImgData :=
  ⟨10, 10, some "JPEG", false, []⟩

/-- An unconditional profile, as the first registry entry usually is. -/
def pDefault : CompressionProfile :=
  { name := "Default" }

/-- A profile whose condition (smallest side at least 1) holds for imgWide. -/
def pA : CompressionProfile :=
  { name := "A", conditions := { smallest_side := some ⟨">=", 1⟩ } }

/-- A profile whose condition (largest side at most 1000) holds for imgWide. -/
def pB : CompressionProfile :=
  { name := "B", conditions := { largest_side := some ⟨"<=", 1000⟩ } }

/-- A profile carrying an out-of-range quality value. -/
def pOverQuality : CompressionProfile :=
  { name := "Loud", quality := 150 }

/-- A structure-preserving compressor with the constructor defaults. -/
def cDefault : ImageCompressor :=
  ImageCompressor.init 85 (some 1920) (some 1080) true "JPEG" 1

/-- A flattening compressor with the constructor defaults. -/
def cFlatten : ImageCompressor :=
  ImageCompressor.init 85 (some 1920) (some 1080) false "JPEG" 1

/-- A valid image inside the subdirectory sub. -/
def fileSub : SrcFile :=
  ⟨["sub"], "a", ".jpg", 100, some imgSmall⟩

/-- A corrupt file with a supported extension: Image.open fails on it. -/
def fileBad : SrcFile :=
  ⟨[], "bad", ".jpg", 50, none⟩

/-- A valid image at the input root. -/
def fileGood : SrcFile :=
  ⟨[], "good", ".jpg", 100, some imgSmall⟩

/-- Same-named images in two different subdirectories. -/
def fileA1 : SrcFile :=
  ⟨["d1"], "a", ".jpg", 100, some imgSmall⟩

/-- Same-named images in two different subdirectories. -/
def fileA2 : SrcFile :=
  ⟨["d2"], "a", ".jpg", 100, some imgSmall⟩

/-- A sample registry with one unconditional and one conditional profile. -/
def regSample : List CompressionProfile :=
  [pDefault, pB]

/-- The task list the planner produces for fileA1 and fileA2 in flattening
mode: the second same-named file gets the _1 suffix. -/
def tasksFlat : List (ImageCompressor × SrcFile × FsPath) :=
  [(cFlatten, fileA1, [("a.jpg" : String)]), (cFlatten, fileA2, ["a_1.jpg"])]

/-- The used_names list after planning fileA1 and fileA2 in flattening mode. -/
def usedFlat : List FsPath :=
  [["a.jpg"], ["a_1.jpg"]]

/-! Helper lemmas: decimal strings are injective, so the collision loop's
candidate names are pairwise distinct and a free one always exists. -/

theorem charVal_digitChar (n : ℕ) (h : n < 10) : charVal (digitChar n) = n := by
  interval_cases n <;> rfl

theorem digitsVal_append (l : List Char) (c : Char) :
    digitsVal (l ++ [c]) = 10 * digitsVal l + charVal c := by
  simp [digitsVal, List.foldl_append]

theorem digitsVal_single (c : Char) : digitsVal [c] = charVal c := by
  simp [digitsVal]

theorem digitsVal_natStrDigitsAux (fuel : ℕ) :
    ∀ n, n ≤ fuel → digitsVal (natStrDigitsAux fuel n) = n := by
  induction fuel with
  | zero =>
    intro n hn
    obtain rfl : n = 0 := by omega
    rfl
  | succ fuel ih =>
    intro n hn
    by_cases h10 : n < 10
    · show digitsVal (if n < 10 then [digitChar n] else _) = n
      rw [if_pos h10, digitsVal_single, charVal_digitChar n h10]
    · show digitsVal (if n < 10 then _ else natStrDigitsAux fuel (n / 10) ++ [digitChar (n % 10)]) = n
      rw [if_neg h10, digitsVal_append, ih (n / 10) (by omega),
        charVal_digitChar (n % 10) (by omega)]
      omega

theorem digitsVal_natStrDigits (n : ℕ) : digitsVal (natStrDigits n) = n :=
  digitsVal_natStrDigitsAux n n (le_refl n)

theorem natStr_inj {m n : ℕ} (h : natStr m = natStr n) : m = n := by
  have hd : natStrDigits m = natStrDigits n := congrArg String.data h
  have := digitsVal_natStrDigits m
  rw [hd, digitsVal_natStrDigits n] at this
  omega

theorem numberedName_inj (stem ext : String) {i j : ℕ}
    (h : numberedName stem ext i = numberedName stem ext j) : i = j := by
  have hdata := congrArg String.data h
  unfold numberedName at hdata
  have hu : ("_" : String).data.length = 1 := rfl
  by_cases hi : i = 0
  · by_cases hj : j = 0
    · omega
    · exfalso
      rw [if_pos hi, if_neg hj] at hdata
      simp only [String.data_append] at hdata
      have hl := congrArg List.length hdata
      simp only [List.length_append, List.length_singleton] at hl
      omega
  · by_cases hj : j = 0
    · exfalso
      rw [if_neg hi, if_pos hj] at hdata
      simp only [String.data_append] at hdata
      have hl := congrArg List.length hdata
      simp only [List.length_append, List.length_singleton] at hl
      omega
    · rw [if_neg hi, if_neg hj] at hdata
      simp only [String.data_append] at hdata
      have h2 := List.append_cancel_left (List.append_cancel_right hdata)
      exact natStr_inj (String.ext h2)

theorem findFreeAux_not_mem (stem ext : String) (taken : List FsPath) :
    ∀ fuel i, (∃ j, i ≤ j ∧ j < i + fuel ∧ ([numberedName stem ext j] : FsPath) ∉ taken) →
    findFreeAux stem ext taken fuel i ∉ taken := by
  intro fuel
  induction fuel with
  | zero =>
    intro i ⟨j, h1, h2, _⟩
    omega
  | succ fuel ih =>
    intro i ⟨j, h1, h2, hfree⟩
    rw [findFreeAux]
    by_cases hmem : ([numberedName stem ext i] : FsPath) ∈ taken
    · rw [if_pos hmem]
      refine ih (i + 1) ⟨j, ?_, by omega, hfree⟩
      rcases Nat.eq_or_lt_of_le h1 with heq | hlt
      · exact absurd (heq ▸ hfree) (by simpa using hmem)
      · omega
    · rw [if_neg hmem]
      exact hmem

theorem exists_free_candidate (stem ext : String) (taken : List FsPath) :
    ∃ j, j < taken.length + 1 ∧ ([numberedName stem ext j] : FsPath) ∉ taken := by
  by_contra hall
  push_neg at hall
  have hinj : Function.Injective
      (fun k : Fin (taken.length + 1) => ([numberedName stem ext k.1] : FsPath)) := by
    intro a b hab
    simp only [List.cons.injEq, and_true] at hab
    exact Fin.ext (numberedName_inj stem ext hab)
  have hmaps : ∀ k : Fin (taken.length + 1),
      ([numberedName stem ext k.1] : FsPath) ∈ taken.toFinset := by
    intro k
    rw [List.mem_toFinset]
    exact hall k.1 k.2
  have hcard : (Finset.univ : Finset (Fin (taken.length + 1))).card ≤ taken.toFinset.card :=
    Finset.card_le_card_of_injOn
      (fun k => ([numberedName stem ext k.1] : FsPath))
      (fun k _ => hmaps k) (Function.Injective.injOn hinj)
  simp only [Finset.card_univ, Fintype.card_fin] at hcard
  have := taken.toFinset_card_le
  omega

theorem findFree_not_mem (stem ext : String) (taken : List FsPath) :
    findFree stem ext taken ∉ taken := by
  obtain ⟨j, hj, hfree⟩ := exists_free_candidate stem ext taken
  exact findFreeAux_not_mem stem ext taken (taken.length + 1) 0
    ⟨j, Nat.zero_le j, by omega, hfree⟩

/-! Helper lemmas about the Nat-division model of int(x * (m / c)). -/

theorem natDiv_le_q (a b c : ℕ) (hc : 0 < c) :
    ((a * b / c : ℕ) : ℚ) ≤ (a : ℚ) * ((b : ℚ) / (c : ℚ)) := by
  have hc' : (0 : ℚ) < (c : ℚ) := by exact_mod_cast hc
  rw [← mul_div_assoc, le_div_iff₀ hc']
  exact_mod_cast Nat.div_mul_le_self (a * b) c

theorem q_lt_natDiv_add_one (a b c : ℕ) (hc : 0 < c) :
    (a : ℚ) * ((b : ℚ) / (c : ℚ)) < ((a * b / c : ℕ) : ℚ) + 1 := by
  have hc' : (0 : ℚ) < (c : ℚ) := by exact_mod_cast hc
  rw [← mul_div_assoc, div_lt_iff₀ hc']
  have hnat : a * b < (a * b / c + 1) * c := by
    have h1 := Nat.div_add_mod (a * b) c
    have h2 := Nat.mod_lt (a * b) hc
    calc a * b = c * (a * b / c) + a * b % c := h1.symm
      _ < c * (a * b / c) + c := Nat.add_lt_add_left h2 _
      _ = (a * b / c + 1) * c := by ring
  calc (a : ℚ) * (b : ℚ) < ((a * b / c + 1 : ℕ) : ℚ) * (c : ℚ) := by exact_mod_cast hnat
    _ = (((a * b / c : ℕ) : ℚ) + 1) * (c : ℚ) := by push_cast; ring

theorem natDiv_scale_le (x m c : ℕ) (hm : m ≤ c) (hc : 0 < c) : x * m / c ≤ x :=
  calc x * m / c ≤ x * c / c := Nat.div_le_div_right (Nat.mul_le_mul_left x hm)
    _ = x := Nat.mul_div_cancel x hc

theorem natDiv_min (a b m c : ℕ) :
    min (a * m / c) (b * m / c) = min a b * m / c := by
  rcases le_total a b with hab | hab
  · rw [min_eq_left hab,
      min_eq_left (Nat.div_le_div_right (Nat.mul_le_mul_right m hab))]
  · rw [min_eq_right hab,
      min_eq_right (Nat.div_le_div_right (Nat.mul_le_mul_right m hab))]

theorem natDiv_max (a b m c : ℕ) :
    max (a * m / c) (b * m / c) = max a b * m / c := by
  rcases le_total a b with hab | hab
  · rw [max_eq_right hab,
      max_eq_right (Nat.div_le_div_right (Nat.mul_le_mul_right m hab))]
  · rw [max_eq_left hab,
      max_eq_left (Nat.div_le_div_right (Nat.mul_le_mul_right m hab))]

theorem scale_twice_bounds (x x1 x2 : ℕ) (s1 s2 : ℚ)
    (h1le : (x1 : ℚ) ≤ x * s1) (h1lt : (x : ℚ) * s1 < x1 + 1)
    (h2le : (x2 : ℚ) ≤ x1 * s2) (h2lt : (x1 : ℚ) * s2 < x2 + 1)
    (hs2a : 0 ≤ s2) (hs2b : s2 ≤ 1) :
    (x2 : ℚ) ≤ x * (s1 * s2) ∧ (x : ℚ) * (s1 * s2) < x2 + 2 := by
  have hx1 : (0 : ℚ) ≤ (x1 : ℚ) := Nat.cast_nonneg x1
  have hx2 : (0 : ℚ) ≤ (x2 : ℚ) := Nat.cast_nonneg x2
  constructor
  · calc (x2 : ℚ) ≤ x1 * s2 := h2le
      _ ≤ (x * s1) * s2 := mul_le_mul_of_nonneg_right h1le hs2a
      _ = x * (s1 * s2) := by ring
  · rcases eq_or_lt_of_le hs2a with hz | hpos
    · have : (x : ℚ) * (s1 * s2) = 0 := by rw [← hz]; ring
      linarith
    · have h3 : (x : ℚ) * s1 * s2 < (x1 + 1) * s2 :=
        mul_lt_mul_of_pos_right h1lt hpos
      have h4 : ((x1 : ℚ) + 1) * s2 = x1 * s2 + s2 := by ring
      calc (x : ℚ) * (s1 * s2) = x * s1 * s2 := by ring
        _ < (x1 + 1) * s2 := h3
        _ = x1 * s2 + s2 := h4
        _ ≤ x1 * s2 + 1 := by linarith
        _ < x2 + 2 := by linarith

theorem plan_step1_eq_some (m w h : ℕ) :
    plan_step1 (some m) w h =
      if m < max w h then (w * m / max w h, h * m / max w h) else (w, h) := rfl

theorem plan_step2_eq_some (m w h : ℕ) (a₁ : ℕ × ℕ) :
    plan_step2 (some m) w h a₁ =
      if m < min w h then
        if m < min a₁.1 a₁.2 then
          (a₁.1 * m / min a₁.1 a₁.2, a₁.2 * m / min a₁.1 a₁.2)
        else a₁
      else a₁ := rfl

theorem plan_step1_cases (maxL : Option ℕ) (w h : ℕ) :
    (plan_step1 maxL w h = (w, h) ∧ ∀ m, maxL = some m → max w h ≤ m) ∨
    (∃ m, maxL = some m ∧ m < max w h ∧
      plan_step1 maxL w h = (w * m / max w h, h * m / max w h)) := by
  rcases maxL with _ | m
  · exact Or.inl ⟨rfl, by intro m hm; cases hm⟩
  · by_cases hlt : m < max w h
    · exact Or.inr ⟨m, rfl, hlt, by rw [plan_step1_eq_some, if_pos hlt]⟩
    · refine Or.inl ⟨by rw [plan_step1_eq_some, if_neg hlt], ?_⟩
      intro m' hm'
      injection hm' with hm'
      omega

theorem plan_step2_cases (maxS : Option ℕ) (w h : ℕ) (a₁ : ℕ × ℕ) :
    (plan_step2 maxS w h a₁ = a₁ ∧
      ∀ m, maxS = some m → min w h ≤ m ∨ min a₁.1 a₁.2 ≤ m) ∨
    (∃ m, maxS = some m ∧ m < min w h ∧ m < min a₁.1 a₁.2 ∧
      plan_step2 maxS w h a₁ =
        (a₁.1 * m / min a₁.1 a₁.2, a₁.2 * m / min a₁.1 a₁.2)) := by
  rcases maxS with _ | m
  · exact Or.inl ⟨rfl, by intro m hm; cases hm⟩
  · by_cases h1 : m < min w h
    · by_cases h2 : m < min a₁.1 a₁.2
      · exact Or.inr ⟨m, rfl, h1, h2,
          by rw [plan_step2_eq_some, if_pos h1, if_pos h2]⟩
      · refine Or.inl ⟨by rw [plan_step2_eq_some, if_pos h1, if_neg h2], ?_⟩
        intro m' hm'
        injection hm' with hm'
        omega
    · refine Or.inl ⟨by rw [plan_step2_eq_some, if_neg h1], ?_⟩
      intro m' hm'
      injection hm' with hm'
      omega

/-- C5. Resize-planner invariants: for all positive dimensions and optional
caps, the planned pair respects the largest-side cap when set, the
smallest-side cap when set, never exceeds the originals, passes unchanged
when no cap is exceeded, and both dimensions are floors of the originals
scaled by one common factor s ≤ 1 up to fewer than 2 units of rounding. -/
theorem plan_dimensions_spec (w h : ℕ) (maxL maxS : Option ℕ)
    (hw : 0 < w) (hh : 0 < h) :
    (∀ m, maxL = some m →
      max (plan_dimensions maxL maxS w h).1 (plan_dimensions maxL maxS w h).2 ≤ m) ∧
    (∀ m, maxS = some m →
      min (plan_dimensions maxL maxS w h).1 (plan_dimensions maxL maxS w h).2 ≤ m) ∧
    (plan_dimensions maxL maxS w h).1 ≤ w ∧
    (plan_dimensions maxL maxS w h).2 ≤ h ∧
    ((∀ m, maxL = some m → max w h ≤ m) → (∀ m, maxS = some m → min w h ≤ m) →
      plan_dimensions maxL maxS w h = (w, h)) ∧
    (∃ s : ℚ, 0 ≤ s ∧ s ≤ 1 ∧
      ((plan_dimensions maxL maxS w h).1 : ℚ) ≤ w * s ∧
      (w : ℚ) * s < ((plan_dimensions maxL maxS w h).1 : ℚ) + 2 ∧
      ((plan_dimensions maxL maxS w h).2 : ℚ) ≤ h * s ∧
      (h : ℚ) * s < ((plan_dimensions maxL maxS w h).2 : ℚ) + 2) := by
  unfold plan_dimensions
  rcases plan_step1_cases maxL w h with ⟨hA, hLesc⟩ | ⟨m1, hm1, hlt1, hA⟩
  · rw [hA]
    rcases plan_step2_cases maxS w h (w, h) with ⟨hP, hSesc⟩ | ⟨m2, hm2, hlt2, hlt2c, hP⟩
    · rw [hP]
      refine ⟨fun m hm => hLesc m hm, ?_, le_refl w, le_refl h, fun _ _ => rfl,
        1, by norm_num, by norm_num, by norm_num, ?_, by norm_num, ?_⟩
      · intro m hm
        rcases hSesc m hm with h' | h' <;> simpa using h'
      · have : (0 : ℚ) ≤ (w : ℚ) := Nat.cast_nonneg w
        linarith
      · have : (0 : ℚ) ≤ (h : ℚ) := Nat.cast_nonneg h
        linarith
    · rw [hP]
      simp only at hlt2c hP ⊢
      have hcs : 0 < min w h := by omega
      have hsc1 : w * m2 / min w h ≤ w :=
        natDiv_scale_le w m2 (min w h) (by omega) hcs
      have hsc2 : h * m2 / min w h ≤ h :=
        natDiv_scale_le h m2 (min w h) (by omega) hcs
      refine ⟨?_, ?_, hsc1, hsc2, ?_, ?_⟩
      · intro m hm
        have h1 := hLesc m hm
        have h2 : max (w * m2 / min w h) (h * m2 / min w h) ≤ max w h :=
          max_le_max hsc1 hsc2
        omega
      · intro m hm
        obtain rfl : m2 = m := Option.some_injective ℕ (hm2.symm.trans hm)
        rw [natDiv_min, Nat.mul_div_cancel_left m2 hcs]
      · intro _ hPass2
        have := hPass2 m2 hm2
        omega
      · refine ⟨(m2 : ℚ) / ((min w h : ℕ) : ℚ), ?_, ?_, ?_, ?_, ?_, ?_⟩
        · positivity
        · rw [div_le_one (by exact_mod_cast hcs)]
          exact_mod_cast Nat.le_of_lt hlt2c
        · exact natDiv_le_q w m2 (min w h) hcs
        · have := q_lt_natDiv_add_one w m2 (min w h) hcs
          linarith
        · exact natDiv_le_q h m2 (min w h) hcs
        · have := q_lt_natDiv_add_one h m2 (min w h) hcs
          linarith
  · rw [hA]
    have hL : 0 < max w h := by omega
    have hw1le : w * m1 / max w h ≤ w := natDiv_scale_le w m1 (max w h) (by omega) hL
    have hh1le : h * m1 / max w h ≤ h := natDiv_scale_le h m1 (max w h) (by omega) hL
    have hmaxA : max (w * m1 / max w h) (h * m1 / max w h) = m1 := by
      rw [natDiv_max, Nat.mul_div_cancel_left m1 hL]
    have hs1w_le : ((w * m1 / max w h : ℕ) : ℚ) ≤ w * ((m1 : ℚ) / ((max w h : ℕ) : ℚ)) :=
      natDiv_le_q w m1 (max w h) hL
    have hs1w_lt : (w : ℚ) * ((m1 : ℚ) / ((max w h : ℕ) : ℚ)) < ((w * m1 / max w h : ℕ) : ℚ) + 1 :=
      q_lt_natDiv_add_one w m1 (max w h) hL
    have hs1h_le : ((h * m1 / max w h : ℕ) : ℚ) ≤ h * ((m1 : ℚ) / ((max w h : ℕ) : ℚ)) :=
      natDiv_le_q h m1 (max w h) hL
    have hs1h_lt : (h : ℚ) * ((m1 : ℚ) / ((max w h : ℕ) : ℚ)) < ((h * m1 / max w h : ℕ) : ℚ) + 1 :=
      q_lt_natDiv_add_one h m1 (max w h) hL
    have hs1a : (0 : ℚ) ≤ (m1 : ℚ) / ((max w h : ℕ) : ℚ) := by positivity
    have hs1b : (m1 : ℚ) / ((max w h : ℕ) : ℚ) ≤ 1 := by
      rw [div_le_one (by exact_mod_cast hL)]
      exact_mod_cast Nat.le_of_lt hlt1
    rcases plan_step2_cases maxS w h (w * m1 / max w h, h * m1 / max w h) with
      ⟨hP, hSesc⟩ | ⟨m2, hm2, hlt2, hlt2c, hP⟩
    · rw [hP]
      refine ⟨?_, ?_, hw1le, hh1le, ?_, ?_⟩
      · intro m hm
        obtain rfl : m1 = m := Option.some_injective ℕ (hm1.symm.trans hm)
        exact le_of_eq hmaxA
      · intro m hm
        rcases hSesc m hm with h' | h'
        · simp only at h' ⊢
          have hmm : min (w * m1 / max w h) (h * m1 / max w h) ≤ min w h :=
            min_le_min hw1le hh1le
          omega
        · simpa using h'
      · intro hPass1 _
        have := hPass1 m1 hm1
        omega
      · exact ⟨(m1 : ℚ) / ((max w h : ℕ) : ℚ), hs1a, hs1b, hs1w_le, by linarith,
          hs1h_le, by linarith⟩
    · rw [hP]
      simp only at hlt2c hP ⊢
      have hcs : 0 < min (w * m1 / max w h) (h * m1 / max w h) := by omega
      have hsc1 : (w * m1 / max w h) * m2 / min (w * m1 / max w h) (h * m1 / max w h) ≤
          w * m1 / max w h :=
        natDiv_scale_le _ m2 _ (by omega) hcs
      have hsc2 : (h * m1 / max w h) * m2 / min (w * m1 / max w h) (h * m1 / max w h) ≤
          h * m1 / max w h :=
        natDiv_scale_le _ m2 _ (by omega) hcs
      refine ⟨?_, ?_, le_trans hsc1 hw1le, le_trans hsc2 hh1le, ?_, ?_⟩
      · intro m hm
        obtain rfl : m1 = m := Option.some_injective ℕ (hm1.symm.trans hm)
        have h2 := max_le_max hsc1 hsc2
        omega
      · intro m hm
        obtain rfl : m2 = m := Option.some_injective ℕ (hm2.symm.trans hm)
        rw [natDiv_min, Nat.mul_div_cancel_left m2 hcs]
      · intro hPass1 _
        have := hPass1 m1 hm1
        omega
      · have hs2a : (0 : ℚ) ≤ (m2 : ℚ) /
            ((min (w * m1 / max w h) (h * m1 / max w h) : ℕ) : ℚ) := by positivity
        have hs2b : (m2 : ℚ) /
            ((min (w * m1 / max w h) (h * m1 / max w h) : ℕ) : ℚ) ≤ 1 := by
          rw [div_le_one (by exact_mod_cast hcs)]
          exact_mod_cast Nat.le_of_lt hlt2c
        have hbw := scale_twice_bounds w (w * m1 / max w h) _
          ((m1 : ℚ) / ((max w h : ℕ) : ℚ))
          ((m2 : ℚ) / ((min (w * m1 / max w h) (h * m1 / max w h) : ℕ) : ℚ))
          hs1w_le hs1w_lt (natDiv_le_q _ m2 _ hcs) (q_lt_natDiv_add_one _ m2 _ hcs)
          hs2a hs2b
        have hbh := scale_twice_bounds h (h * m1 / max w h) _
          ((m1 : ℚ) / ((max w h : ℕ) : ℚ))
          ((m2 : ℚ) / ((min (w * m1 / max w h) (h * m1 / max w h) : ℕ) : ℚ))
          hs1h_le hs1h_lt (natDiv_le_q _ m2 _ hcs) (q_lt_natDiv_add_one _ m2 _ hcs)
          hs2a hs2b
        exact ⟨(m1 : ℚ) / ((max w h : ℕ) : ℚ) *
            ((m2 : ℚ) / ((min (w * m1 / max w h) (h * m1 / max w h) : ℕ) : ℚ)),
          mul_nonneg hs1a hs2a, mul_le_one₀ hs1b hs2a hs2b,
          hbw.1, hbw.2, hbh.1, hbh.2⟩

/-! Claim theorems. -/

/-- C5 witness: the invariants instantiated for a 4000x3000 image under the
default 1920/1080 caps. -/
theorem plan_dimensions_spec_witness :
    (0 < 4000 ∧ 0 < 3000) ∧
    (∀ m, (some 1920 : Option ℕ) = some m →
      max (plan_dimensions (some 1920) (some 1080) 4000 3000).1
          (plan_dimensions (some 1920) (some 1080) 4000 3000).2 ≤ m) ∧
    plan_dimensions (some 1920) (some 1080) 4000 3000 = (1440, 1080) :=
  ⟨⟨by norm_num, by norm_num⟩,
   (plan_dimensions_spec 4000 3000 (some 1920) (some 1080) (by norm_num) (by norm_num)).1,
   by decide⟩

/-- C10. Condition vacuity and fail-closed semantics: a ProfileConditions
with every field unset matches every possible set of image properties, while
a set transparency condition with an absent transparency actual and a set
file-size condition with an absent file-size actual both make matches return
false. -/
theorem conditions_vacuous_and_fail_closed :
    (∀ (w h : ℕ) (fmt : Option String) (tr : Option Bool) (fs : Option ℚ)
       (ex : Option (List (String × PyVal))), 0 < w → 0 < h →
      ProfileConditions.matches {} w h fmt tr fs ex = true) ∧
    (∀ (c : ProfileConditions) (w h : ℕ) (fmt : Option String) (fs : Option ℚ)
       (ex : Option (List (String × PyVal))) (b : Bool),
      c.requires_transparency = some b →
      c.matches w h fmt none fs ex = false) ∧
    (∀ (c : ProfileConditions) (w h : ℕ) (fmt : Option String) (tr : Option Bool)
       (ex : Option (List (String × PyVal))) (nc : NumericCondition),
      c.file_size = some nc →
      c.matches w h fmt tr none ex = false) := by
  refine ⟨?_, ?_, ?_⟩
  · intro w h fmt tr fs ex _ _
    simp [ProfileConditions.matches, matchCond]
  · intro c w h fmt fs ex b hb
    simp [ProfileConditions.matches, hb, matchCond]
  · intro c w h fmt tr ex nc hnc
    simp [ProfileConditions.matches, hnc, matchCond]

/-- C10 witness: the three parts at concrete conditions and properties. -/
theorem conditions_vacuous_and_fail_closed_witness :
    (0 < 100 ∧ 0 < 50 ∧
      ProfileConditions.matches {} 100 50 (some "JPEG") (some false) (some 7) (some []) = true) ∧
    (({ requires_transparency := some true } : ProfileConditions).requires_transparency
        = some true ∧
      ProfileConditions.matches { requires_transparency := some true } 100 50 none none
        none none = false) ∧
    (({ file_size := some ⟨"<", 9⟩ } : ProfileConditions).file_size = some ⟨"<", 9⟩ ∧
      ProfileConditions.matches { file_size := some ⟨"<", 9⟩ } 100 50 none (some false)
        none none = false) :=
  ⟨⟨by norm_num, by norm_num,
    conditions_vacuous_and_fail_closed.1 100 50 (some "JPEG") (some false) (some 7)
      (some []) (by norm_num) (by norm_num)⟩,
   ⟨rfl, conditions_vacuous_and_fail_closed.2.1 _ 100 50 none none none true rfl⟩,
   ⟨rfl, conditions_vacuous_and_fail_closed.2.2 _ 100 50 none (some false) none ⟨"<", 9⟩ rfl⟩⟩

/-- C9 counterexample: at 60 seconds (zero days, zero hours, one minute,
zero seconds) the code prints "1m", not the "1m 0s" the claim requires, so
interior and trailing zero units are omitted, not only leading ones. -/
theorem format_timedelta_interior_zero_cex :
    format_timedelta 60 = "1m" ∧ format_timedelta 60 ≠ "1m 0s" :=
  ⟨rfl, by decide⟩

/-- C9 amended: the duration string lists, in day/hour/minute/second order,
exactly the nonzero units (zero units are omitted wherever they occur), with
seconds also shown when days, hours and minutes are all zero. -/
theorem format_timedelta_nonzero_units (d h m s : ℕ)
    (hh : h < 24) (hm : m < 60) (hs : s < 60) :
    format_timedelta (d * 86400 + h * 3600 + m * 60 + s) =
      " ".intercalate
        ((if d ≠ 0 then [natStr d ++ "d"] else []) ++
         (if h ≠ 0 then [natStr h ++ "h"] else []) ++
         (if m ≠ 0 then [natStr m ++ "m"] else []) ++
         (if s ≠ 0 ∨ (d = 0 ∧ h = 0 ∧ m = 0) then [natStr s ++ "s"] else [])) := by
  have h1 : (d * 86400 + h * 3600 + m * 60 + s) / 86400 = d := by omega
  have h2 : (d * 86400 + h * 3600 + m * 60 + s) % 86400 = h * 3600 + m * 60 + s := by
    omega
  have h3 : (h * 3600 + m * 60 + s) / 3600 = h := by omega
  have h4 : (h * 3600 + m * 60 + s) % 3600 = m * 60 + s := by omega
  have h5 : (m * 60 + s) / 60 = m := by omega
  have h6 : (m * 60 + s) % 60 = s := by omega
  simp only [format_timedelta, h1, h2, h3, h4, h5, h6]
  congr 1
  by_cases hd0 : d = 0 <;> by_cases hh0 : h = 0 <;> by_cases hm0 : m = 0 <;>
    simp [hd0, hh0, hm0]

/-- C9 witness: one day plus five minutes renders as "1d 5m". -/
theorem format_timedelta_nonzero_units_witness :
    ((0 : ℕ) < 24 ∧ (5 : ℕ) < 60 ∧ (0 : ℕ) < 60) ∧
    format_timedelta (1 * 86400 + 0 * 3600 + 5 * 60 + 0) =
      " ".intercalate
        ((if (1 : ℕ) ≠ 0 then [natStr 1 ++ "d"] else []) ++
         (if (0 : ℕ) ≠ 0 then [natStr 0 ++ "h"] else []) ++
         (if (5 : ℕ) ≠ 0 then [natStr 5 ++ "m"] else []) ++
         (if (0 : ℕ) ≠ 0 ∨ ((1 : ℕ) = 0 ∧ (0 : ℕ) = 0 ∧ (5 : ℕ) = 0)
          then [natStr 0 ++ "s"] else [])) :=
  ⟨⟨by norm_num, by norm_num, by norm_num⟩,
   format_timedelta_nonzero_units 1 0 5 0 (by norm_num) (by norm_num) (by norm_num)⟩

/-- C4 counterexample: applying a profile whose quality is 150 leaves the
compressor's quality at 150, outside 1..100, because apply_profile copies
profile.quality without clamping before the AttributeError escapes. -/
theorem apply_profile_quality_unclamped_cex :
    quality_after cDefault pOverQuality = 150 ∧
    ¬(1 ≤ quality_after cDefault pOverQuality ∧
      quality_after cDefault pOverQuality ≤ 100) :=
  ⟨rfl, by decide⟩

/-- C4 amended: the constructor clamps every quality argument into 1..100;
apply_profile copies the profile quality verbatim, so the compressor quality
after apply_profile lies in 1..100 exactly when the profile's own quality
already does. -/
theorem quality_clamped_at_init_and_conditionally_after_profile :
    (∀ (q : ℤ) (mL mS : Option ℕ) (ps : Bool) (fmt : String) (nw : ℤ),
      1 ≤ (ImageCompressor.init q mL mS ps fmt nw).quality ∧
      (ImageCompressor.init q mL mS ps fmt nw).quality ≤ 100) ∧
    (∀ (c : ImageCompressor) (p : CompressionProfile),
      1 ≤ p.quality → p.quality ≤ 100 →
      quality_after c p = p.quality ∧
      1 ≤ quality_after c p ∧ quality_after c p ≤ 100) := by
  constructor
  · intro q mL mS ps fmt nw
    show 1 ≤ max 1 (min 100 q) ∧ max 1 (min 100 q) ≤ 100
    omega
  · intro c p h1 h2
    refine ⟨?_, ?_, ?_⟩ <;>
      simp [quality_after, apply_profile, CompressionProfile.preserve_structure?] <;>
      omega

/-- C4 witness: the constructor clamps 200 and 0; applying the in-range
default profile keeps quality in range. -/
theorem quality_clamped_witness :
    (1 ≤ (ImageCompressor.init 200 none none true "JPEG" 1).quality ∧
      (ImageCompressor.init 200 none none true "JPEG" 1).quality ≤ 100) ∧
    (1 ≤ (ImageCompressor.init 0 none none true "JPEG" 1).quality ∧
      (ImageCompressor.init 0 none none true "JPEG" 1).quality ≤ 100) ∧
    (1 ≤ (75 : ℤ) ∧ (75 : ℤ) ≤ 100) ∧
    (quality_after cDefault pDefault = pDefault.quality ∧
      1 ≤ quality_after cDefault pDefault ∧ quality_after cDefault pDefault ≤ 100) :=
  ⟨quality_clamped_at_init_and_conditionally_after_profile.1 200 none none true "JPEG" 1,
   quality_clamped_at_init_and_conditionally_after_profile.1 0 none none true "JPEG" 1,
   ⟨by norm_num, by norm_num⟩,
   quality_clamped_at_init_and_conditionally_after_profile.2 cDefault pDefault
     (by decide) (by decide)⟩

/-- C1. In structure-preserving mode the planner writes the compressed image
for sub/a.jpg directly to output_root/a.jpg, not to the mirrored
output_root/sub/a.jpg the claim (and the preserve_structure docstring)
requires: the image branch of process_directory never consults the file's
relative path. -/
theorem preserve_mode_image_written_to_root :
    cDefault.preserve_structure = true ∧
    fileSub.dirs = ["sub"] ∧
    process_directory cDefault [fileSub] none false =
      .ok (1, 1, [["a.jpg"]], []) ∧
    (["a.jpg"] : FsPath) ≠ ["sub", "a.jpg"] :=
  ⟨rfl, rfl, rfl, by decide⟩

/-- C3. A corrupt file among valid ones: with no profile registry the run
completes, counts the valid file as the one success and itemizes exactly the
corrupt file; but with a non-empty registry the run aborts during planning —
select_profile raises opening the corrupt file, and apply_profile raises
AttributeError on any file a profile matches — instead of completing. -/
theorem corrupt_file_with_profiles_aborts_run :
    process_directory cDefault [fileBad, fileGood] none false =
      .ok (2, 1, [["good.jpg"]], [["bad.jpg"]]) ∧
    process_directory cDefault [fileBad, fileGood] (some [pDefault]) false =
      .error (.unidentifiedImage ["bad.jpg"]) ∧
    process_directory cDefault [fileGood, fileBad] (some [pDefault]) false =
      .error (.attributeError "preserve_structure") :=
  ⟨rfl, rfl, rfl⟩

/-- C6. Profile selection scans from last to first: for the registry
[Default(no conditions), A(true), B(true)] it returns B; in general it
returns none exactly when no profile's conditions match, and appending a
profile makes it the first one consulted. -/
theorem select_profile_reverse_scan :
    (select_profile imgWide (some 100) [pDefault, pA, pB] = some pB) ∧
    (pA.conditions.matches imgWide.width imgWide.height
        (some (strUpper (imgWide.format.getD ""))) (some imgWide.has_transparency)
        (some 100) (some imgWide.exif) = true) ∧
    (∀ (d : ImgData) (fs : Option ℚ) (ps : List CompressionProfile),
      select_profile d fs ps = none ↔
        ∀ p ∈ ps, p.conditions.matches d.width d.height
          (some (strUpper (d.format.getD ""))) (some d.has_transparency) fs
          (some d.exif) = false) ∧
    (∀ (d : ImgData) (fs : Option ℚ) (ps : List CompressionProfile)
       (p : CompressionProfile),
      select_profile d fs (ps ++ [p]) =
        if p.conditions.matches d.width d.height (some (strUpper (d.format.getD "")))
            (some d.has_transparency) fs (some d.exif)
        then some p else select_profile d fs ps) := by
  refine ⟨by decide, by decide, ?_, ?_⟩
  · intro d fs ps
    rw [select_profile, List.find?_eq_none]
    constructor
    · intro hall p hp
      have := hall p (List.mem_reverse.mpr hp)
      simpa using this
    · intro h p hp
      simp [h p (List.mem_reverse.mp hp)]
  · intro d fs ps p
    rw [select_profile, select_profile, List.reverse_append, List.reverse_singleton,
      List.singleton_append, List.find?_cons]
    by_cases hmatch : p.conditions.matches d.width d.height
        (some (strUpper (d.format.getD ""))) (some d.has_transparency) fs
        (some d.exif) = true
    · simp [hmatch]
    · simp only [Bool.not_eq_true] at hmatch
      simp [hmatch]

/-- C6 witness: the concrete precedence scenario, and the append
characterization instantiated at the same registry. -/
theorem select_profile_reverse_scan_witness :
    select_profile imgWide (some 100) [pDefault, pA, pB] = some pB ∧
    select_profile imgWide (some 100) ([pDefault, pA] ++ [pB]) =
      (if pB.conditions.matches imgWide.width imgWide.height
          (some (strUpper (imgWide.format.getD ""))) (some imgWide.has_transparency)
          (some 100) (some imgWide.exif)
       then some pB else select_profile imgWide (some 100) [pDefault, pA]) :=
  ⟨select_profile_reverse_scan.1,
   select_profile_reverse_scan.2.2.2 imgWide (some 100) [pDefault, pA] pB⟩

/-! Round-trip lemmas for the profile serialization (C7). -/

theorem jToPy_pyToJ (v : PyVal) : jToPy (pyToJ v) = some v := by
  cases v <;> rfl

theorem optMap_map_id {α β : Type} (e : α → β) (d : β → Option α)
    (h : ∀ x, d (e x) = some x) (l : List α) : optMap d (l.map e) = some l := by
  induction l with
  | nil => rfl
  | cons x xs ih => simp [optMap, h x, ih]

theorem paramsFromJ_paramsToJ (ps : List (String × PyVal)) :
    paramsFromJ (paramsToJ ps) = some ps := by
  simp only [paramsToJ, paramsFromJ]
  exact optMap_map_id _ _ (fun kv => by simp [jToPy_pyToJ]) ps

theorem ncFromJ_optJ (oc : Option NumericCondition) :
    ncFromJ (some (optJ ncToJ oc)) = some oc := by
  cases oc <;> rfl

theorem jOptStr_optJ (o : Option String) :
    jOptStr (some (optJ J.js o)) = some o := by
  cases o <;> rfl

theorem jOptBool_optJ (o : Option Bool) :
    jOptBool (some (optJ J.jb o)) = some o := by
  cases o <;> rfl

theorem jOptNat_optJ (o : Option ℕ) :
    jOptNat (some (optJ (fun n : ℕ => J.jn (n : ℚ)) o)) = some o := by
  cases o with
  | none => rfl
  | some n => simp [optJ, jOptNat]

theorem jOptStrList_optJ (o : Option (List String)) :
    jOptStrList (some (optJ (fun l => J.jarr (l.map J.js)) o)) = some o := by
  cases o with
  | none => rfl
  | some l =>
    simp only [optJ, jOptStrList]
    rw [optMap_map_id J.js
      (fun v => match v with | J.js s' => some s' | _ => none) (fun x => rfl) l]
    rfl

theorem jOptExif_optJ (o : Option (List (String × PyVal))) :
    jOptExif (some (optJ paramsToJ o)) = some o := by
  cases o with
  | none => rfl
  | some ex =>
    simp only [optJ, paramsToJ, jOptExif]
    rw [show J.jobj (ex.map fun kv => (kv.1, pyToJ kv.2)) = paramsToJ ex from rfl,
      paramsFromJ_paramsToJ]
    rfl

theorem conditionsFromJ_conditionsToJ (c : ProfileConditions) :
    conditionsFromJ (conditionsToJ c) = some c := by
  obtain ⟨ss, ls, pc, ar, ori, fmts, rt, fs, re⟩ := c
  simp [conditionsToJ, conditionsFromJ, jGet, ncFromJ_optJ, jOptStr_optJ,
    jOptBool_optJ, jOptStrList_optJ, jOptExif_optJ]

theorem profileFromJ_profileToJ (p : CompressionProfile) :
    profileFromJ (profileToJ p) = some p := by
  obtain ⟨nm, q, mls, mss, fmt, jp, wp, ap, conds⟩ := p
  simp [profileToJ, profileFromJ, jGet, paramsFromJ_paramsToJ,
    conditionsFromJ_conditionsToJ, jOptNat_optJ]

/-- C7. Saving any non-empty profile registry as a structured document and
loading it back reproduces the registry, order and all, with and without
conditions set. -/
theorem profiles_roundtrip (ps : List CompressionProfile) (_hne : ps ≠ []) :
    load_profiles (save_profiles ps) = some ps := by
  simp only [save_profiles, load_profiles]
  exact optMap_map_id profileToJ profileFromJ profileFromJ_profileToJ ps

/-- C7 witness: a registry with an unconditional profile and a conditional
one round-trips. -/
theorem profiles_roundtrip_witness :
    regSample ≠ [] ∧ load_profiles (save_profiles regSample) = some regSample :=
  ⟨by simp [regSample], profiles_roundtrip regSample (by simp [regSample])⟩

/-! Lemmas for the planning pre-pass (C2, C8). -/

theorem apply_profile_eq_error (c : ImageCompressor) (p : CompressionProfile) :
    apply_profile c p = .error
      { c with
        quality := p.quality
        max_largest_side := p.max_largest_side
        max_smallest_side := p.max_smallest_side } := rfl

theorem clone_some_eq_error (self : ImageCompressor) (p : CompressionProfile) :
    _clone_with_profile self (some p) = .error
      { cloneBase self with
        quality := p.quality
        max_largest_side := p.max_largest_side
        max_smallest_side := p.max_smallest_side } := rfl

theorem clone_none_eq_ok (self : ImageCompressor) :
    _clone_with_profile self none = .ok (cloneBase self) := rfl

theorem cloneBase_preserve (self : ImageCompressor) :
    (cloneBase self).preserve_structure = self.preserve_structure := rfl

theorem planFiles_error_of_match (self : ImageCompressor)
    (ps : List CompressionProfile) (f : SrcFile) (d : ImgData)
    (hps : ps ≠ []) (hsup : f.supported = true) (himg : f.image = some d)
    (hsel : (select_profile d (some (f.size : ℚ)) ps).isSome = true) :
    ∀ (files : List SrcFile) (used written : List FsPath), f ∈ files →
      ∃ e, planFiles self (some ps) files used written = .error e := by
  intro files
  induction files with
  | nil =>
    intro used written hmem
    exact absurd hmem (List.not_mem_nil f)
  | cons g gs ih =>
    intro used written hmem
    obtain ⟨p₀, ps', rfl⟩ : ∃ p₀ ps', ps = p₀ :: ps' := by
      cases ps with
      | nil => exact absurd rfl hps
      | cons a b => exact ⟨a, b, rfl⟩
    rcases List.mem_cons.mp hmem with rfl | hmem'
    · obtain ⟨prof, hprof⟩ := Option.isSome_iff_exists.mp hsel
      refine ⟨.attributeError "preserve_structure", ?_⟩
      simp only [planFiles, planSelect, hsup, if_true, himg, hprof,
        clone_some_eq_error]
    · by_cases hg : g.supported = true
      · cases himgg : g.image with
        | none =>
          refine ⟨.unidentifiedImage g.path, ?_⟩
          simp only [planFiles, planSelect, hg, if_true, himgg]
        | some dg =>
          cases hselg : select_profile dg (some (g.size : ℚ)) (p₀ :: ps') with
          | some prof =>
            refine ⟨.attributeError "preserve_structure", ?_⟩
            simp only [planFiles, planSelect, hg, if_true, himgg, hselg,
              clone_some_eq_error]
          | none =>
            obtain ⟨e, he⟩ := ih _ written hmem'
            refine ⟨e, ?_⟩
            simp only [planFiles, planSelect, hg, if_true, himgg, hselg,
              clone_none_eq_ok]
            rw [he]
      · obtain ⟨e, he⟩ := ih _ _ hmem'
        simp only [planFiles]
        rw [if_neg hg]
        exact ⟨e, he⟩

/-- C2. apply_profile reads the preserve_structure attribute, which the
slots dataclass CompressionProfile does not define: it raises AttributeError
for every compressor and every profile, with quality, max_largest_side and
max_smallest_side already overwritten; consequently every process_directory
run in which some image matches a supplied profile aborts during planning
with an error instead of compressing. -/
theorem apply_profile_attribute_error :
    (∀ (c : ImageCompressor) (p : CompressionProfile),
      apply_profile c p = .error
        { c with
          quality := p.quality
          max_largest_side := p.max_largest_side
          max_smallest_side := p.max_smallest_side }) ∧
    (∀ (self : ImageCompressor) (files : List SrcFile)
       (ps : List CompressionProfile) (f : SrcFile) (d : ImgData),
      ps ≠ [] → f ∈ files → f.supported = true → f.image = some d →
      (select_profile d (some (f.size : ℚ)) ps).isSome = true →
      ∃ e, process_directory self files (some ps) false = .error e) := by
  constructor
  · exact apply_profile_eq_error
  · intro self files ps f d hps hmem hsup himg hsel
    obtain ⟨e, he⟩ := planFiles_error_of_match self ps f d hps hsup himg hsel
      files [] [] hmem
    refine ⟨e, ?_⟩
    simp only [process_directory, if_false, Bool.false_eq_true, he]

/-- C2 witness: a concrete compressor, profile and single-image run. -/
theorem apply_profile_attribute_error_witness :
    (apply_profile cDefault pDefault = .error
      { cDefault with
        quality := pDefault.quality
        max_largest_side := pDefault.max_largest_side
        max_smallest_side := pDefault.max_smallest_side }) ∧
    (∃ e, process_directory cDefault [fileGood] (some [pDefault]) false = .error e) :=
  ⟨apply_profile_attribute_error.1 cDefault pDefault,
   apply_profile_attribute_error.2 cDefault [fileGood] [pDefault] fileGood imgSmall
     (by simp) (by simp) (by decide) (by decide) (by decide)⟩

theorem planImageDst_flatten (self : ImageCompressor) (g : SrcFile)
    (used written : List FsPath) (hflat : self.preserve_structure = false) :
    planImageDst (cloneBase self) g used written =
      findFree g.stem (_get_extension_according_format (cloneBase self))
        (used ++ written) := by
  simp [planImageDst, cloneBase_preserve, hflat]

theorem planCopyDst_flatten (self : ImageCompressor) (g : SrcFile)
    (used written : List FsPath) (hflat : self.preserve_structure = false) :
    planCopyDst self g used written =
      findFree g.stem g.suffix (used ++ written) := by
  simp [planCopyDst, hflat]

theorem planFiles_flatten_nodup (self : ImageCompressor)
    (profiles : Option (List CompressionProfile))
    (hflat : self.preserve_structure = false) :
    ∀ (files : List SrcFile) (used written : List FsPath)
      (tasks : List (ImageCompressor × SrcFile × FsPath))
      (used' written' : List FsPath),
      planFiles self profiles files used written = .ok (tasks, used', written') →
      ∃ newW, written' = written ++ newW ∧
        (tasks.map (fun t => t.2.2) ++ newW).Nodup ∧
        ∀ x ∈ tasks.map (fun t => t.2.2) ++ newW, x ∉ used ∧ x ∉ written := by
  intro files
  induction files with
  | nil =>
    intro used written tasks used' written' h
    simp only [planFiles, Except.ok.injEq, Prod.mk.injEq] at h
    obtain ⟨rfl, rfl, rfl⟩ := h
    exact ⟨[], by simp, by simp, by simp⟩
  | cons g gs ih =>
    intro used written tasks used' written' h
    by_cases hg : g.supported = true
    · simp only [planFiles, hg, if_true] at h
      cases hS : planSelect profiles g with
      | error e =>
        rw [hS] at h
        simp at h
      | ok prof =>
        rw [hS] at h
        cases prof with
        | some p =>
          simp [clone_some_eq_error] at h
        | none =>
          simp only [clone_none_eq_ok] at h
          cases hrec : planFiles self profiles gs
              (used ++ [planImageDst (cloneBase self) g used written]) written with
          | error e =>
            rw [hrec] at h
            simp at h
          | ok trip =>
            obtain ⟨t, u, w⟩ := trip
            rw [hrec] at h
            simp only [Except.ok.injEq, Prod.mk.injEq] at h
            obtain ⟨rfl, rfl, rfl⟩ := h
            obtain ⟨newW, hW, hnd, hmem⟩ := ih _ written t u w hrec
            have hfree : planImageDst (cloneBase self) g used written ∉ used ++ written := by
              rw [planImageDst_flatten self g used written hflat]
              exact findFree_not_mem _ _ _
            refine ⟨newW, hW, ?_, ?_⟩
            · simp only [List.map_cons, List.cons_append, List.nodup_cons]
              refine ⟨?_, hnd⟩
              intro hin
              exact (hmem _ hin).1 (by simp)
            · intro x hx
              simp only [List.map_cons, List.cons_append, List.mem_cons] at hx
              rcases hx with rfl | hx
              · exact ⟨fun hu => hfree (List.mem_append.mpr (Or.inl hu)),
                  fun hw => hfree (List.mem_append.mpr (Or.inr hw))⟩
              · have hx' := hmem x hx
                exact ⟨fun hu => hx'.1 (List.mem_append.mpr (Or.inl hu)), hx'.2⟩
    · simp only [planFiles] at h
      rw [if_neg hg] at h
      rw [hflat] at h
      simp only [Bool.false_eq_true, if_false] at h
      obtain ⟨newW, hW, hnd, hmem⟩ := ih _ _ tasks used' written' h
      have hfree : planCopyDst self g used written ∉ used ++ written := by
        rw [planCopyDst_flatten self g used written hflat]
        exact findFree_not_mem _ _ _
      have hCnotin : planCopyDst self g used written ∉
          tasks.map (fun t => t.2.2) ++ newW := by
        intro hin
        exact (hmem _ hin).1 (by simp)
      refine ⟨planCopyDst self g used written :: newW, ?_, ?_, ?_⟩
      · rw [hW]
        simp
      · exact (List.perm_middle).symm.nodup (List.nodup_cons.mpr ⟨hCnotin, hnd⟩)
      · intro x hx
        rcases List.mem_append.mp hx with hx' | hx'
        · have := hmem x (List.mem_append.mpr (Or.inl hx'))
          exact ⟨fun hu => this.1 (List.mem_append.mpr (Or.inl hu)),
            fun hw => this.2 (List.mem_append.mpr (Or.inl hw))⟩
        · rcases List.mem_cons.mp hx' with rfl | hx''
          · exact ⟨fun hu => hfree (List.mem_append.mpr (Or.inl hu)),
              fun hw => hfree (List.mem_append.mpr (Or.inr hw))⟩
          · have := hmem x (List.mem_append.mpr (Or.inr hx''))
            exact ⟨fun hu => this.1 (List.mem_append.mpr (Or.inl hu)),
              fun hw => this.2 (List.mem_append.mpr (Or.inl hw))⟩

/-- C8. In flattening mode every run that completes planning has pairwise
distinct planned output paths: the compressed-image destinations and the
copied-file destinations together contain no duplicate, so no planned
output overwrites another output of the same run. -/
theorem flatten_mode_planned_paths_distinct (self : ImageCompressor)
    (profiles : Option (List CompressionProfile)) (files : List SrcFile)
    (tasks : List (ImageCompressor × SrcFile × FsPath))
    (used' written' : List FsPath)
    (hflat : self.preserve_structure = false)
    (hok : planFiles self profiles files [] [] = .ok (tasks, used', written')) :
    (tasks.map (fun t => t.2.2) ++ written').Nodup := by
  obtain ⟨newW, hW, hnd, _⟩ :=
    planFiles_flatten_nodup self profiles hflat files [] [] tasks used' written' hok
  rw [hW]
  simpa using hnd

/-- C8 witness: two same-named images from different subdirectories get the
distinct flattened names a.jpg and a_1.jpg. -/
theorem flatten_mode_planned_paths_distinct_witness :
    cFlatten.preserve_structure = false ∧
    planFiles cFlatten none [fileA1, fileA2] [] [] = .ok (tasksFlat, usedFlat, []) ∧
    (tasksFlat.map (fun t => t.2.2) ++ ([] : List FsPath)).Nodup :=
  ⟨rfl, rfl,
   flatten_mode_planned_paths_distinct cFlatten none [fileA1, fileA2]
     tasksFlat usedFlat [] rfl rfl⟩

end PhotoCompresser
